import Mathlib

/-
Verification of the JSON-recovery pipeline in src/handoff/utils.py.

Text is modelled as List Char.  The two external collaborators — the strict
JSON decoder (json.loads) and the lenient repair engine (json_repair.loads) —
are parameters of the pipeline: the strict decoder returns either a decoded
value or a syntax error carrying a message and 1-based line/column numbers,
and the repair engine returns either a value of arbitrary type or signals an
exception (modelled as Option.none).  Everything else is translated directly
from the Python source.
-/

/-- Python str.isspace / the whitespace set stripped by str.strip(). -/
def py_isspace (c : Char) : Bool :=
  decide (c = ' ' ∨ c = '\t' ∨ c = '\n' ∨ c = '\r' ∨ c = '\x0b' ∨ c = '\x0c' ∨
    c = '\x1c' ∨ c = '\x1d' ∨ c = '\x1e' ∨ c = '\x1f' ∨ c = '\x85' ∨ c = '\xa0' ∨
    c = '\u1680' ∨ ('\u2000' ≤ c ∧ c ≤ '\u200a') ∨ c = '\u2028' ∨ c = '\u2029' ∨
    c = '\u202f' ∨ c = '\u205f' ∨ c = '\u3000')

/-- Python str.lstrip() with no argument. -/
def pyLstrip (s : List Char) : List Char := s.dropWhile py_isspace

/-- Python str.rstrip() with no argument. -/
def pyRstrip (s : List Char) : List Char := s.rdropWhile py_isspace

/-- Python str.strip() with no argument. -/
def pyStrip (s : List Char) : List Char := pyRstrip (pyLstrip s)

/-- Line-break characters recognised by Python str.splitlines(). -/
def isLineBreakChar (c : Char) : Bool :=
  decide (c = '\n' ∨ c = '\r' ∨ c = '\x0b' ∨ c = '\x0c' ∨ c = '\x1c' ∨ c = '\x1d' ∨
    c = '\x1e' ∨ c = '\x85' ∨ c = '\u2028' ∨ c = '\u2029')

/-- Helper for pySplitlines: accumulates the current line (reversed). -/
def pySplitlinesAux (acc : List Char) : List Char → List (List Char)
  | [] => [acc.reverse]
  | '\r' :: '\n' :: rest =>
      acc.reverse :: (if rest.isEmpty then [] else pySplitlinesAux [] rest)
  | c :: rest =>
      if isLineBreakChar c then
        acc.reverse :: (if rest.isEmpty then [] else pySplitlinesAux [] rest)
      else pySplitlinesAux (c :: acc) rest

/-- Python str.splitlines(). -/
def pySplitlines (s : List Char) : List (List Char) :=
  match s with
  | [] => []
  | _ => pySplitlinesAux [] s

/-- ASCII lower-casing of one character (Python str.lower on the ASCII range;
the decoder messages and the pattern table are ASCII). -/
def pyLowerChar (c : Char) : Char :=
  if 'A' ≤ c ∧ c ≤ 'Z' then Char.ofNat (c.toNat + 32) else c

/-- Python str.lower() over the text. -/
def pyLower (s : List Char) : List Char := s.map pyLowerChar

/-- Python str(int). -/
def pyStrInt (n : Int) : List Char :=
  if n < 0 then '-' :: (Nat.repr n.natAbs).data else (Nat.repr n.toNat).data

/-- Right-align a string in a field of the given width (Python format spec >). -/
def padLeft (w : Nat) (s : List Char) : List Char :=
  List.replicate (w - s.length) ' ' ++ s

/-- Python text.replace of a newline by backslash-n and a tab by backslash-t. -/
def escapeNlTab (s : List Char) : List Char :=
  s.flatMap fun c =>
    if c = '\n' then ['\\', 'n'] else if c = '\t' then ['\\', 't'] else [c]

/-- Python substring containment (the in operator on str). -/
def containsSub (pat : List Char) : List Char → Bool
  | [] => pat.isEmpty
  | c :: rest => pat.isPrefixOf (c :: rest) || containsSub pat rest

/-- Python values, as returned by json.loads and json_repair.loads. -/
inductive PyVal where
  | dict : List (List Char × PyVal) → PyVal
  | list : List PyVal → PyVal
  | str : List Char → PyVal
  | int : Int → PyVal
  | bool : Bool → PyVal
  | pyNone : PyVal

/-- The isinstance(x, (dict, list)) check of the repair stage. -/
def PyVal.isContainer : PyVal → Bool
  | .dict _ => true
  | .list _ => true
  | _ => false

/-- A json.JSONDecodeError: message plus 1-based line and column numbers. -/
structure JErr where
  msg : List Char
  lineno : Nat
  colno : Nat
deriving DecidableEq

/-- The ParseResult dataclass of detailed mode. -/
structure ParseResult where
  data : PyVal
  truncated : Bool
  repaired : Bool

/-- Return shape of parse_json: bare data (plain mode) or a ParseResult. -/
inductive PRet where
  | plain : PyVal → PRet
  | detailed : ParseResult → PRet

/-- Outcome of a parse_json call: a returned value, or a raised ParseError
carrying its message, raw_output and optional original decode error. -/
inductive POut where
  | ok : PRet → POut
  | err : List Char → List Char → Option JErr → POut

/-- The dynamic argument of parse_json: a str, or a non-string object of which
the code only observes type(x).__name__ and repr(x). -/
inductive PyInput where
  | string : List Char → PyInput
  | nonString : List Char → List Char → PyInput

/-- Scan state of _is_likely_truncated. -/
structure ScanState where
  depth_brace : Int
  depth_bracket : Int
  in_string : Bool
  escape : Bool

/-- One character step of the truncation scan in _is_likely_truncated. -/
def truncStep (st : ScanState) (ch : Char) : ScanState :=
  if st.escape then { st with escape := false }
  else if ch = '\\' then (if st.in_string then { st with escape := true } else st)
  else if ch = '\"' then { st with in_string := !st.in_string }
  else if st.in_string then st
  else if ch = '\x7b' then { st with depth_brace := st.depth_brace + 1 }
  else if ch = '\x7d' then { st with depth_brace := st.depth_brace - 1 }
  else if ch = '[' then { st with depth_bracket := st.depth_bracket + 1 }
  else if ch = ']' then { st with depth_bracket := st.depth_bracket - 1 }
  else st

/-- Translation of _is_likely_truncated. -/
def _is_likely_truncated (text : List Char) : Bool :=
  if text.isEmpty then false
  else
    let st := text.foldl truncStep ⟨0, 0, false, false⟩
    decide (0 < st.depth_brace) || decide (0 < st.depth_bracket)

/-- Scan state of the matching loop in _extract_json_substring. -/
structure ExtState where
  depth : Int
  in_string : Bool
  escape : Bool

/-- The matching loop of _extract_json_substring, over the characters from the
first opener on; returns the number of characters up to and including the
matching closer, or none if the depth never returns to zero. -/
def extractLoop (opener closer : Char) : ExtState → List Char → Option Nat
  | _, [] => Option.none
  | st, ch :: rest =>
    if st.escape then
      (extractLoop opener closer { st with escape := false } rest).map (fun n => n + 1)
    else if ch = '\\' then
      (extractLoop opener closer
        (if st.in_string then { st with escape := true } else st) rest).map (fun n => n + 1)
    else if ch = '\"' then
      (extractLoop opener closer { st with in_string := !st.in_string } rest).map
        (fun n => n + 1)
    else if st.in_string then
      (extractLoop opener closer st rest).map (fun n => n + 1)
    else if ch = opener then
      (extractLoop opener closer { st with depth := st.depth + 1 } rest).map (fun n => n + 1)
    else if ch = closer then
      (if st.depth - 1 = 0 then some 1
       else (extractLoop opener closer { st with depth := st.depth - 1 } rest).map
         (fun n => n + 1))
    else
      (extractLoop opener closer st rest).map (fun n => n + 1)

/-- Linear search for the first structural opener, as in _extract_json_substring. -/
def firstOpenerFrom (i : Nat) : List Char → Option (Nat × Char)
  | [] => Option.none
  | ch :: rest =>
      if ch = '\x7b' ∨ ch = '[' then some (i, ch) else firstOpenerFrom (i + 1) rest

/-- Translation of _extract_json_substring. -/
def _extract_json_substring (text : List Char) : Option (List Char) :=
  match firstOpenerFrom 0 text with
  | Option.none => Option.none
  | some (start, opener) =>
    let closer := if opener = '\x7b' then '\x7d' else ']'
    (extractLoop opener closer ⟨0, false, false⟩ (text.drop start)).map
      (fun n => (text.drop start).take n)

/-- Pure one-character step of the extraction scan (spec-side restatement of
the loop body of _extract_json_substring, without the early return). -/
def extStep (opener closer : Char) (st : ExtState) (ch : Char) : ExtState :=
  if st.escape then { st with escape := false }
  else if ch = '\\' then (if st.in_string then { st with escape := true } else st)
  else if ch = '\"' then { st with in_string := !st.in_string }
  else if st.in_string then st
  else if ch = opener then { st with depth := st.depth + 1 }
  else if ch = closer then { st with depth := st.depth - 1 }
  else st

/-- Signed count of unmatched openers of the tracked bracket type after an
escape-aware scan of the given characters. -/
def extDepthAfter (opener closer : Char) (chars : List Char) : Int :=
  (chars.foldl (extStep opener closer) ⟨0, false, false⟩).depth

/-- Modelled from the spec: boundary extraction returns the substring from the
first occurrence of a structural opener through the first later position at
which the escape-aware count of that one bracket type returns to zero, both
endpoints inclusive, and fails if there is no opener or no zero-crossing. -/
def extractSpecFn (text : List Char) : Option (List Char) :=
  match firstOpenerFrom 0 text with
  | Option.none => Option.none
  | some (start, opener) =>
    let closer := if opener = '\x7b' then '\x7d' else ']'
    let s := text.drop start
    ((List.range s.length).find? fun k =>
        decide (extDepthAfter opener closer (s.take (k + 1)) = 0)).map
      (fun k => s.take (k + 1))

/-- The markdown fence marker of _strip_code_fences. -/
def fenceMarker : List Char := "```".data

/-- Translation of _strip_code_fences. -/
def _strip_code_fences (text : List Char) : List Char :=
  let stripped := pyStrip text
  if fenceMarker.isPrefixOf stripped then
    let body :=
      match (stripped.span (fun c => !(c = '\n'))).2 with
      | [] => []
      | _ :: restOfFirstLine => restOfFirstLine
    let body2 :=
      if fenceMarker.isSuffixOf (pyRstrip body) then
        (pyRstrip body).take ((pyRstrip body).length - 3)
      else body
    pyStrip body2
  else stripped

/-- Translation of _format_context_snippet. -/
def _format_context_snippet (text : List Char) (lineno colno : Nat) : List Char :=
  let lines := pySplitlines text
  if lines.isEmpty || decide (lineno < 1) then []
  else
    let error_idx := min (lineno - 1) (lines.length - 1)
    let start_idx := error_idx - 1
    let end_idx := min lines.length (error_idx + 2)
    let width := (Nat.repr end_idx).length
    let rows := (List.range' start_idx (end_idx - start_idx)).flatMap fun i =>
      let lc0 := lines.getD i []
      let line_content := if decide (80 < lc0.length) then lc0.take 77 ++ "...".data else lc0
      let row1 := "  ".data ++ padLeft width (Nat.repr (i + 1)).data ++ " | ".data ++ line_content
      if i = error_idx then
        let pointer_pos := if 0 < colno then min (colno - 1) line_content.length else 0
        [row1, "  ".data ++ List.replicate width ' ' ++ " | ".data ++
          (List.replicate pointer_pos ' ' ++ ['^'])]
      else [row1]
    List.intercalate ['\n'] rows

/-- Translation of _suggest_fix. -/
def _suggest_fix (error_msg text : List Char) (lineno colno : Nat) : Option (List Char) :=
  let msg_lower := pyLower error_msg
  let lines := pySplitlines text
  let line := lines.getD (lineno - 1) []
  let char_at_error : List Char :=
    if !lines.isEmpty ∧ 1 ≤ lineno ∧ lineno ≤ lines.length then
      (if 0 < colno ∧ colno ≤ line.length then [line.getD (colno - 1) ' '] else [])
    else []
  if containsSub "unterminated string".data msg_lower then
    some "Missing closing quote. Check for unescaped quotes inside the string.".data
  else if containsSub "expecting property name".data msg_lower then
    (if char_at_error = "\x7d".data then
      some "Trailing comma before closing brace. Remove the comma.".data
     else some "Object key must be a double-quoted string.".data)
  else if containsSub "unexpected end".data msg_lower ∨
      containsSub "end of data".data msg_lower then
    let open_braces : Int := (text.count '\x7b' : Int) - (text.count '\x7d' : Int)
    let open_brackets : Int := (text.count '[' : Int) - (text.count ']' : Int)
    if 0 < open_braces then
      some ("Missing closing brace. ".data ++ pyStrInt open_braces ++
        " unclosed '\x7b' found.".data)
    else if 0 < open_brackets then
      some ("Missing closing bracket. ".data ++ pyStrInt open_brackets ++
        " unclosed '[' found.".data)
    else some "Unexpected end of input. Check for missing closing braces or brackets.".data
  else if containsSub "expecting value".data msg_lower then
    (if char_at_error = ",".data then
      some "Trailing comma in array. Remove the comma before ']'.".data
     else if char_at_error = "\x7d".data then
      some "Missing value after colon.".data
     else some "Expected a value (string, number, object, array, true, false, or null).".data)
  else if containsSub "expecting ':'".data msg_lower ∨
      containsSub "expecting colon".data msg_lower then
    some "Missing colon after object key.".data
  else if containsSub "expecting ',' or '\x7d'".data msg_lower then
    some "Missing comma between object properties, or extra content after value.".data
  else if containsSub "expecting ',' or ']'".data msg_lower then
    some "Missing comma between array elements, or extra content after value.".data
  else if containsSub "invalid \\escape".data msg_lower ∨
      containsSub "invalid escape".data msg_lower then
    some "Invalid escape sequence. Use \\\\ for backslash, or \\n, \\t, \\r, \\u for special chars.".data
  else Option.none

/-- Translation of _format_parse_error (preview_len at its default 200). -/
def _format_parse_error (error : JErr) (raw_text : List Char) : List Char :=
  let headline := "JSON parse error: ".data ++ error.msg ++ " at line ".data ++
    (Nat.repr error.lineno).data ++ ", column ".data ++ (Nat.repr error.colno).data
  let snippet := _format_context_snippet raw_text error.lineno error.colno
  let parts1 := if snippet ≠ [] then [headline, [], snippet] else [headline]
  let parts2 :=
    match _suggest_fix error.msg raw_text error.lineno error.colno with
    | some suggestion => parts1 ++ [[], "Suggestion: ".data ++ suggestion]
    | Option.none => parts1
  let preview0 := raw_text.take 200
  let preview := if decide (200 < raw_text.length) then preview0 ++ "...".data else preview0
  let parts3 := parts2 ++ [[], "Input preview: '".data ++ escapeNlTab preview ++ "'".data]
  List.intercalate ['\n'] parts3

/-- The BOM character stripped by parse_json. -/
def bomChar : Char := '\ufeff'

/-- The closure _return inside parse_json. -/
def _return (detailed : Bool) (was_truncated was_repaired : Bool) (data : PyVal) : PRet :=
  if detailed then PRet.detailed ⟨data, was_truncated, was_repaired⟩ else PRet.plain data

/-- The final repair stage of parse_json: run the repair engine on the target
and accept only dict/list results; anything else falls through to the raise,
which is seeded with the first strict-parse error. -/
def repairStage (repair : List Char → Option PyVal) (target : List Char)
    (first_error : JErr) : Except JErr (PyVal × Bool) :=
  match repair target with
  | some repaired =>
      if repaired.isContainer then Except.ok (repaired, true) else Except.error first_error
  | Option.none => Except.error first_error

/-- The boundary-extraction stage of parse_json followed by the repair stage:
parse the extracted substring if one exists, then repair the extracted
substring if one was found, else the cleaned text. -/
def extractStage (loads : List Char → Except JErr PyVal)
    (repair : List Char → Option PyVal) (cleaned : List Char)
    (first_error : JErr) : Except JErr (PyVal × Bool) :=
  match _extract_json_substring cleaned with
  | some extracted =>
      (match loads extracted with
       | Except.ok data => Except.ok (data, false)
       | Except.error _ => repairStage repair extracted first_error)
  | Option.none => repairStage repair cleaned first_error

/-- The try-chain of parse_json over the BOM-stripped text: strict parse,
fence-stripped parse, boundary-extracted parse, repair.  Returns the data and
the was_repaired flag, or the captured first strict-parse error. -/
def parseAttempts (loads : List Char → Except JErr PyVal)
    (repair : List Char → Option PyVal) (cleaned : List Char) :
    Except JErr (PyVal × Bool) :=
  match loads cleaned with
  | Except.ok data => Except.ok (data, false)
  | Except.error first_error =>
    match loads (_strip_code_fences cleaned) with
    | Except.ok data => Except.ok (data, false)
    | Except.error _ => extractStage loads repair cleaned first_error

/-- Translation of parse_json, parameterised by the strict decoder and the
repair engine. -/
def parse_json (loads : List Char → Except JErr PyVal)
    (repair : List Char → Option PyVal) (input : PyInput) (detailed : Bool) : POut :=
  match input with
  | PyInput.nonString typeName reprText =>
      POut.err ("Expected string, got ".data ++ typeName) (reprText.take 500) Option.none
  | PyInput.string text =>
    let cleaned := text.dropWhile (fun c => c == bomChar)
    let was_truncated := _is_likely_truncated cleaned
    match parseAttempts loads repair cleaned with
    | Except.ok (data, was_repaired) =>
        POut.ok (_return detailed was_truncated was_repaired data)
    | Except.error first_error =>
        POut.err (_format_parse_error first_error text) (text.take 500) (some first_error)

/-
Concrete collaborator instances used by witnesses and counterexamples.
-/

/-- A fixed strict-parse error as raised on plainly non-JSON text. -/
def errExpectingValue : JErr := ⟨"Expecting value".data, 1, 1⟩

/-- A strict decoder that accepts every text (used to exercise success paths). -/
def loadsAlwaysOk : List Char → Except JErr PyVal := fun _ => Except.ok (PyVal.dict [])

/-- A strict decoder that rejects every text. -/
def loadsAlwaysFail : List Char → Except JErr PyVal := fun _ => Except.error errExpectingValue

/-- A strict decoder that decodes exactly the text 42 to the number 42, as the
standard JSON decoder does, and rejects everything else. -/
def loadsOnly42 : List Char → Except JErr PyVal
  | '4' :: '2' :: [] => Except.ok (PyVal.int 42)
  | _ => Except.error errExpectingValue

/-- A repair engine that always signals failure. -/
def repairAlwaysFail : List Char → Option PyVal := fun _ => Option.none

/-- A repair engine that always returns an empty map. -/
def repairAlwaysDict : List Char → Option PyVal := fun _ => some (PyVal.dict [])

/-- C9: for every non-string input, parse_json fails immediately with the
type-mismatch ParseError: message "Expected string, got " plus the type name,
raw_output the first 500 characters of the repr of the input, and no original
decode error.  The outcome is the same for every strict decoder, repair engine
and mode, so no recovery stage (BOM strip, truncation check, strict parse,
fence strip, extraction, repair) is ever attempted. -/
theorem C9_nonstring_type_error (loads : List Char → Except JErr PyVal)
    (repair : List Char → Option PyVal) (typeName reprText : List Char) (detailed : Bool) :
    parse_json loads repair (PyInput.nonString typeName reprText) detailed =
      POut.err ("Expected string, got ".data ++ typeName) (reprText.take 500) Option.none := rfl

/-- C1: whenever the strict decoder accepts the BOM-stripped text, parse_json
returns exactly that decoded value, and in detailed mode the ParseResult
carries repaired = false (the truncation flag is the scan of the BOM-stripped
text). -/
theorem C1_strict_success (loads : List Char → Except JErr PyVal)
    (repair : List Char → Option PyVal) (text : List Char) (v : PyVal)
    (h : loads (text.dropWhile (fun c => c == bomChar)) = Except.ok v) :
    parse_json loads repair (PyInput.string text) false = POut.ok (PRet.plain v) ∧
    parse_json loads repair (PyInput.string text) true =
      POut.ok (PRet.detailed
        ⟨v, _is_likely_truncated (text.dropWhile (fun c => c == bomChar)), false⟩) := by
  constructor <;> simp [parse_json, parseAttempts, h, _return]

/-- Witness for C1 at the concrete input consisting of an empty JSON object. -/
theorem C1_strict_success_witness :
    parse_json loadsAlwaysOk repairAlwaysFail (PyInput.string "\x7b\x7d".data) false =
      POut.ok (PRet.plain (PyVal.dict [])) ∧
    parse_json loadsAlwaysOk repairAlwaysFail (PyInput.string "\x7b\x7d".data) true =
      POut.ok (PRet.detailed
        ⟨PyVal.dict [],
         _is_likely_truncated ("\x7b\x7d".data.dropWhile (fun c => c == bomChar)), false⟩) :=
  C1_strict_success loadsAlwaysOk repairAlwaysFail "\x7b\x7d".data (PyVal.dict []) rfl

/-- C10: prepending any number of byte-order-mark characters to the input
changes neither whether parse_json succeeds nor, on success, the returned
value or its truncated/repaired flags (only failure diagnostics can differ). -/
theorem C10_bom_invariant (loads : List Char → Except JErr PyVal)
    (repair : List Char → Option PyVal) (s : List Char) (n : Nat) (detailed : Bool) (r : PRet) :
    parse_json loads repair (PyInput.string (List.replicate n bomChar ++ s)) detailed =
        POut.ok r ↔
    parse_json loads repair (PyInput.string s) detailed = POut.ok r := by
  have hcl : (List.replicate n bomChar ++ s).dropWhile (fun c => c == bomChar)
      = s.dropWhile (fun c => c == bomChar) := by
    induction n with
    | zero => simp
    | succ k ih => simp [List.replicate_succ, ih]
  simp only [parse_json, hcl]
  cases hp : parseAttempts loads repair (s.dropWhile (fun c => c == bomChar)) with
  | ok p => rfl
  | error e => simp

/-- C2 fails on the code: the strict-parse fast path returns whatever the
decoder produced, with no dict/list check, so the valid JSON text 42 makes
parse_json return the bare number 42 — not a map or sequence — in both plain
and detailed mode, contradicting the declared dict-or-list result type. -/
theorem C2_primitive_leak :
    parse_json loadsOnly42 repairAlwaysFail (PyInput.string "42".data) false =
      POut.ok (PRet.plain (PyVal.int 42)) ∧
    parse_json loadsOnly42 repairAlwaysFail (PyInput.string "42".data) true =
      POut.ok (PRet.detailed ⟨PyVal.int 42, false, false⟩) ∧
    (PyVal.int 42).isContainer = false :=
  ⟨rfl, rfl, rfl⟩

/-- C3: in detailed mode, on any successful result the truncated flag is true
exactly when the escape-aware scan of the whole BOM-stripped text ends with a
strictly positive brace counter or a strictly positive bracket counter; a
closer surplus (negative counter) is not flagged, and the flag does not depend
on which stage produced the value. -/
theorem C3_truncated_flag (loads : List Char → Except JErr PyVal)
    (repair : List Char → Option PyVal) (text : List Char) (r : ParseResult)
    (h : parse_json loads repair (PyInput.string text) true = POut.ok (PRet.detailed r)) :
    r.truncated = true ↔
      (0 < (((text.dropWhile (fun c => c == bomChar)).foldl truncStep
              ⟨0, 0, false, false⟩).depth_brace) ∨
       0 < (((text.dropWhile (fun c => c == bomChar)).foldl truncStep
              ⟨0, 0, false, false⟩).depth_bracket)) := by
  have hr : r.truncated = _is_likely_truncated (text.dropWhile (fun c => c == bomChar)) := by
    revert h
    simp only [parse_json]
    cases hp : parseAttempts loads repair (text.dropWhile (fun c => c == bomChar)) with
    | ok p =>
        intro h
        simp only [_return, if_true, POut.ok.injEq, PRet.detailed.injEq] at h
        rw [← h]
    | error e => intro h; cases h
  rw [hr, _is_likely_truncated]
  cases htext : (text.dropWhile (fun c => c == bomChar)) with
  | nil => simp
  | cons c cs => simp

/-- Witness for C3 at a lone opening bracket, where the flag is true. -/
theorem C3_truncated_flag_witness :
    (⟨PyVal.dict [], true, false⟩ : ParseResult).truncated = true ↔
      (0 < ((("[".data.dropWhile (fun c => c == bomChar)).foldl truncStep
              ⟨0, 0, false, false⟩).depth_brace) ∨
       0 < ((("[".data.dropWhile (fun c => c == bomChar)).foldl truncStep
              ⟨0, 0, false, false⟩).depth_bracket)) :=
  C3_truncated_flag loadsAlwaysOk repairAlwaysFail "[".data ⟨PyVal.dict [], true, false⟩ rfl


/-- Evaluation lemma for the _return closure in detailed mode. -/
theorem _return_eval_true (a b : Bool) (d : PyVal) :
    _return true a b d = PRet.detailed ⟨d, a, b⟩ := rfl

/-- Evaluation lemma for the _return closure in plain mode. -/
theorem _return_eval_false (a b : Bool) (d : PyVal) :
    _return false a b d = PRet.plain d := rfl

/-- C4: in detailed mode, on any successful result the repaired flag is true
exactly when the strict parse of the BOM-stripped text failed, the strict
parse of the fence-stripped text failed, the strict parse of the extracted
substring (when one exists) failed, and the repair engine — run on the
extracted substring if one was found, else on the BOM-stripped text —
returned a dict or list value; fence unwrapping and boundary extraction alone
never set the flag. -/
theorem C4_repaired_flag (loads : List Char → Except JErr PyVal)
    (repair : List Char → Option PyVal) (text : List Char) (r : ParseResult)
    (h : parse_json loads repair (PyInput.string text) true = POut.ok (PRet.detailed r)) :
    r.repaired = true ↔
      ((∃ e, loads (text.dropWhile (fun c => c == bomChar)) = Except.error e) ∧
       (∃ e, loads (_strip_code_fences (text.dropWhile (fun c => c == bomChar))) =
          Except.error e) ∧
       (∀ ex, _extract_json_substring (text.dropWhile (fun c => c == bomChar)) = some ex →
          ∃ e, loads ex = Except.error e) ∧
       (∃ v, repair ((_extract_json_substring (text.dropWhile (fun c => c == bomChar))).getD
            (text.dropWhile (fun c => c == bomChar))) = some v ∧ v.isContainer = true)) := by
  cases h1 : loads (text.dropWhile (fun c => c == bomChar)) with
  | ok d1 =>
      have hp : parseAttempts loads repair (text.dropWhile (fun c => c == bomChar)) =
          Except.ok (d1, false) := by
        simp only [parseAttempts, h1]
      have hparse : parse_json loads repair (PyInput.string text) true =
          POut.ok (PRet.detailed
            ⟨d1, _is_likely_truncated (text.dropWhile (fun c => c == bomChar)), false⟩) := by
        simp only [parse_json, hp, _return_eval_true]
      rw [hparse] at h
      simp only [POut.ok.injEq, PRet.detailed.injEq] at h
      rw [← h]
      simp [h1]
  | error e1 =>
    cases h2 : loads (_strip_code_fences (text.dropWhile (fun c => c == bomChar))) with
    | ok d2 =>
        have hp : parseAttempts loads repair (text.dropWhile (fun c => c == bomChar)) =
            Except.ok (d2, false) := by
          simp only [parseAttempts, h1, h2]
        have hparse : parse_json loads repair (PyInput.string text) true =
            POut.ok (PRet.detailed
              ⟨d2, _is_likely_truncated (text.dropWhile (fun c => c == bomChar)), false⟩) := by
          simp only [parse_json, hp, _return_eval_true]
        rw [hparse] at h
        simp only [POut.ok.injEq, PRet.detailed.injEq] at h
        rw [← h]
        simp [h2]
    | error e2 =>
      cases h3 : _extract_json_substring (text.dropWhile (fun c => c == bomChar)) with
      | none =>
        cases h5 : repair (text.dropWhile (fun c => c == bomChar)) with
        | none =>
            have hp : parseAttempts loads repair (text.dropWhile (fun c => c == bomChar)) =
                Except.error e1 := by
              simp only [parseAttempts, h1, h2, extractStage, h3, repairStage, h5]
            have hparse : parse_json loads repair (PyInput.string text) true =
                POut.err (_format_parse_error e1 text) (text.take 500) (some e1) := by
              simp only [parse_json, hp]
            rw [hparse] at h
            exact POut.noConfusion h
        | some v =>
          cases hv : v.isContainer with
          | false =>
              have hp : parseAttempts loads repair (text.dropWhile (fun c => c == bomChar)) =
                  Except.error e1 := by
                simp only [parseAttempts, h1, h2, extractStage, h3, repairStage, h5, hv,
                  Bool.false_eq_true, if_false]
              have hparse : parse_json loads repair (PyInput.string text) true =
                  POut.err (_format_parse_error e1 text) (text.take 500) (some e1) := by
                simp only [parse_json, hp]
              rw [hparse] at h
              exact POut.noConfusion h
          | true =>
              have hp : parseAttempts loads repair (text.dropWhile (fun c => c == bomChar)) =
                  Except.ok (v, true) := by
                simp only [parseAttempts, h1, h2, extractStage, h3, repairStage, h5, hv, if_true]
              have hparse : parse_json loads repair (PyInput.string text) true =
                  POut.ok (PRet.detailed
                    ⟨v, _is_likely_truncated (text.dropWhile (fun c => c == bomChar)), true⟩) := by
                simp only [parse_json, hp, _return_eval_true]
              rw [hparse] at h
              simp only [POut.ok.injEq, PRet.detailed.injEq] at h
              rw [← h]
              refine ⟨fun _ => ⟨⟨e1, rfl⟩, ⟨e2, rfl⟩, ?_, ⟨v, ?_, hv⟩⟩, fun _ => rfl⟩
              · intro ex hex
                exact Option.noConfusion hex
              · exact h5
      | some ex =>
        cases h4 : loads ex with
        | ok d4 =>
            have hp : parseAttempts loads repair (text.dropWhile (fun c => c == bomChar)) =
                Except.ok (d4, false) := by
              simp only [parseAttempts, h1, h2, extractStage, h3, h4]
            have hparse : parse_json loads repair (PyInput.string text) true =
                POut.ok (PRet.detailed
                  ⟨d4, _is_likely_truncated (text.dropWhile (fun c => c == bomChar)), false⟩) := by
              simp only [parse_json, hp, _return_eval_true]
            rw [hparse] at h
            simp only [POut.ok.injEq, PRet.detailed.injEq] at h
            rw [← h]
            simp only [Bool.false_eq_true, false_iff]
            rintro ⟨-, -, hall, -⟩
            obtain ⟨e', he'⟩ := hall ex rfl
            rw [h4] at he'
            exact Except.noConfusion he'
        | error e4 =>
          cases h5 : repair ex with
          | none =>
              have hp : parseAttempts loads repair (text.dropWhile (fun c => c == bomChar)) =
                  Except.error e1 := by
                simp only [parseAttempts, h1, h2, extractStage, h3, h4, repairStage, h5]
              have hparse : parse_json loads repair (PyInput.string text) true =
                  POut.err (_format_parse_error e1 text) (text.take 500) (some e1) := by
                simp only [parse_json, hp]
              rw [hparse] at h
              exact POut.noConfusion h
          | some v =>
            cases hv : v.isContainer with
            | false =>
                have hp : parseAttempts loads repair (text.dropWhile (fun c => c == bomChar)) =
                    Except.error e1 := by
                  simp only [parseAttempts, h1, h2, extractStage, h3, h4, repairStage, h5, hv,
                    Bool.false_eq_true, if_false]
                have hparse : parse_json loads repair (PyInput.string text) true =
                    POut.err (_format_parse_error e1 text) (text.take 500) (some e1) := by
                  simp only [parse_json, hp]
                rw [hparse] at h
                exact POut.noConfusion h
            | true =>
                have hp : parseAttempts loads repair (text.dropWhile (fun c => c == bomChar)) =
                    Except.ok (v, true) := by
                  simp only [parseAttempts, h1, h2, extractStage, h3, h4, repairStage, h5, hv,
                    if_true]
                have hparse : parse_json loads repair (PyInput.string text) true =
                    POut.ok (PRet.detailed
                      ⟨v, _is_likely_truncated (text.dropWhile (fun c => c == bomChar)),
                        true⟩) := by
                  simp only [parse_json, hp, _return_eval_true]
                rw [hparse] at h
                simp only [POut.ok.injEq, PRet.detailed.injEq] at h
                rw [← h]
                refine ⟨fun _ => ⟨⟨e1, rfl⟩, ⟨e2, rfl⟩, ?_, ⟨v, ?_, hv⟩⟩, fun _ => rfl⟩
                · intro ex' hex'
                  obtain rfl := Option.some.inj hex'
                  exact ⟨e4, h4⟩
                · exact h5

/-- Witness for C4: all parse stages fail on the letter x and the repair
engine returns a map, so the flag is true. -/
theorem C4_repaired_flag_witness :
    (⟨PyVal.dict [], false, true⟩ : ParseResult).repaired = true ↔
      ((∃ e, loadsAlwaysFail ("x".data.dropWhile (fun c => c == bomChar)) = Except.error e) ∧
       (∃ e, loadsAlwaysFail (_strip_code_fences ("x".data.dropWhile (fun c => c == bomChar))) =
          Except.error e) ∧
       (∀ ex, _extract_json_substring ("x".data.dropWhile (fun c => c == bomChar)) = some ex →
          ∃ e, loadsAlwaysFail ex = Except.error e) ∧
       (∃ v, repairAlwaysDict ((_extract_json_substring
            ("x".data.dropWhile (fun c => c == bomChar))).getD
            ("x".data.dropWhile (fun c => c == bomChar))) = some v ∧ v.isContainer = true)) :=
  C4_repaired_flag loadsAlwaysFail repairAlwaysDict "x".data ⟨PyVal.dict [], false, true⟩ rfl

/-- C7: when the strict parse, the fence-stripped parse, the extracted-substring
parse and the repair stage all fail, parse_json raises a ParseError whose
message is built by the error reporter from the first strict-parse error and
the original unmodified input, whose raw_output is the first 500 characters of
the original input, and whose original field is exactly that first error. -/
theorem C7_failure_uses_first_error (loads : List Char → Except JErr PyVal)
    (repair : List Char → Option PyVal) (text : List Char) (detailed : Bool) (e : JErr)
    (h1 : loads (text.dropWhile (fun c => c == bomChar)) = Except.error e)
    (h2 : ∀ v, loads (_strip_code_fences (text.dropWhile (fun c => c == bomChar))) ≠
        Except.ok v)
    (h3 : ∀ ex v, _extract_json_substring (text.dropWhile (fun c => c == bomChar)) = some ex →
        loads ex ≠ Except.ok v)
    (h4 : ∀ v, repair ((_extract_json_substring (text.dropWhile (fun c => c == bomChar))).getD
        (text.dropWhile (fun c => c == bomChar))) = some v → v.isContainer = false) :
    parse_json loads repair (PyInput.string text) detailed =
      POut.err (_format_parse_error e text) (text.take 500) (some e) := by
  have hp : parseAttempts loads repair (text.dropWhile (fun c => c == bomChar)) =
      Except.error e := by
    cases h2' : loads (_strip_code_fences (text.dropWhile (fun c => c == bomChar))) with
    | ok v => exact absurd h2' (h2 v)
    | error e2 =>
      cases h3' : _extract_json_substring (text.dropWhile (fun c => c == bomChar)) with
      | none =>
        cases h5 : repair (text.dropWhile (fun c => c == bomChar)) with
        | none =>
            simp only [parseAttempts, h1, h2', extractStage, h3', repairStage, h5]
        | some v =>
            have hv := h4 v (by rw [h3']; exact h5)
            simp only [parseAttempts, h1, h2', extractStage, h3', repairStage, h5, hv,
              Bool.false_eq_true, if_false]
      | some ex =>
        cases h4' : loads ex with
        | ok v => exact absurd h4' (h3 ex v h3')
        | error e4 =>
          cases h5 : repair ex with
          | none =>
              simp only [parseAttempts, h1, h2', extractStage, h3', h4', repairStage, h5]
          | some v =>
              have hv := h4 v (by rw [h3']; exact h5)
              simp only [parseAttempts, h1, h2', extractStage, h3', h4', repairStage, h5, hv,
                Bool.false_eq_true, if_false]
  simp only [parse_json, hp]

/-- Witness for C7: every stage fails on the letter x, and the raised error
carries the formatted first error, the 500-character prefix and the original
first error. -/
theorem C7_failure_uses_first_error_witness :
    parse_json loadsAlwaysFail repairAlwaysFail (PyInput.string "x".data) true =
      POut.err (_format_parse_error errExpectingValue "x".data) ("x".data.take 500)
        (some errExpectingValue) :=
  C7_failure_uses_first_error loadsAlwaysFail repairAlwaysFail "x".data true errExpectingValue
    rfl (fun _ h => nomatch h) (fun _ _ hex => nomatch hex) (fun _ h => nomatch h)

/-- A dropWhile-stable list is dropWhile-stable on every prefix. -/
theorem dropWhile_take_of_eq_self (p : Char → Bool) (l : List Char) (k : Nat)
    (h : l.dropWhile p = l) : (l.take k).dropWhile p = l.take k := by
  cases l with
  | nil => simp
  | cons c t =>
      rw [List.dropWhile_eq_self_iff] at h
      have hpc : p c = false := by
        have := h (by simp)
        simpa using this
      cases k with
      | zero => simp
      | succ k' => simp [List.dropWhile_cons, hpc]

/-- Left-stripping is stable on the output of pyStrip. -/
theorem pyLstrip_pyStrip (s : List Char) : pyLstrip (pyStrip s) = pyStrip s := by
  have hl : (pyLstrip s).dropWhile py_isspace = pyLstrip s := by
    simpa [pyLstrip] using List.dropWhile_idempotent py_isspace s
  have hpre : pyRstrip (pyLstrip s) <+: pyLstrip s := List.rdropWhile_prefix _ _
  rw [List.prefix_iff_eq_take] at hpre
  show (pyRstrip (pyLstrip s)).dropWhile py_isspace = pyRstrip (pyLstrip s)
  rw [hpre]
  exact dropWhile_take_of_eq_self py_isspace (pyLstrip s) _ hl

/-- Python str.strip is idempotent. -/
theorem pyStrip_idempotent (s : List Char) : pyStrip (pyStrip s) = pyStrip s := by
  show pyRstrip (pyLstrip (pyStrip s)) = pyStrip s
  rw [pyLstrip_pyStrip]
  simp only [pyStrip, pyRstrip]
  exact List.rdropWhile_idempotent py_isspace (pyLstrip s)

/-- The fence stripper returns whitespace-stripped text in every branch. -/
theorem pyStrip_strip_code_fences (t : List Char) :
    pyStrip (_strip_code_fences t) = _strip_code_fences t := by
  simp only [_strip_code_fences]
  split
  · exact pyStrip_idempotent _
  · exact pyStrip_idempotent _

/-- On text whose whitespace-trim does not open with a fence marker, the fence
stripper only trims whitespace. -/
theorem strip_code_fences_of_not_fence (s : List Char)
    (h : fenceMarker.isPrefixOf (pyStrip s) = false) :
    _strip_code_fences s = pyStrip s := by
  simp only [_strip_code_fences, h, Bool.false_eq_true, if_false]

/-- C5 fails on the code: unwrapping one fence can expose a second fence, which
a second application then unwraps.  On the nested-fence text below one
application yields a text still opening with a fence marker, and a second
application strips further. -/
theorem C5_counterexample_nested_fences :
    _strip_code_fences (_strip_code_fences "```\n```json\n\x7b\x7d\n```".data) ≠
      _strip_code_fences "```\n```json\n\x7b\x7d\n```".data := by decide

/-- C5 amended: applying the fence stripper twice equals applying it once for
every input whose once-stripped form does not itself begin with a fence
marker (in particular on all text without fences); the frozen universal form
fails only when one unwrapping uncovers another fence. -/
theorem C5_amended_idempotent_no_nested_fence (t : List Char)
    (h : fenceMarker.isPrefixOf (_strip_code_fences t) = false) :
    _strip_code_fences (_strip_code_fences t) = _strip_code_fences t := by
  have hfix := pyStrip_strip_code_fences t
  calc _strip_code_fences (_strip_code_fences t)
      = pyStrip (_strip_code_fences t) :=
        strip_code_fences_of_not_fence _ (by rw [hfix]; exact h)
    _ = _strip_code_fences t := hfix

/-- Witness for the amended C5 on plain unfenced text. -/
theorem C5_amended_idempotent_no_nested_fence_witness :
    _strip_code_fences (_strip_code_fences "hello".data) = _strip_code_fences "hello".data :=
  C5_amended_idempotent_no_nested_fence "hello".data (by decide)

/-- C8 fails on the code as universally stated: the suggestion table is
ordered first-match-wins, so a message that also contains an earlier pattern
(here "unterminated string") yields the earlier row's suggestion even though
it contains "unexpected end" and the raw text has a positive unclosed-brace
count. -/
theorem C8_counterexample_earlier_row_wins :
    containsSub "unexpected end".data
      (pyLower "Unterminated string unexpected end".data) = true ∧
    0 < (("\x7b".data.count '\x7b' : Int) - ("\x7b".data.count '\x7d' : Int)) ∧
    _suggest_fix "Unterminated string unexpected end".data "\x7b".data 1 1 =
      some "Missing closing quote. Check for unescaped quotes inside the string.".data ∧
    _suggest_fix "Unterminated string unexpected end".data "\x7b".data 1 1 ≠
      some ("Missing closing brace. ".data ++ pyStrInt 1 ++ " unclosed '\x7b' found.".data) :=
  ⟨by decide, by decide, by decide, by decide⟩

/-- C8 amended: when the lowercased message matches no earlier table row
("unterminated string", "expecting property name") and contains "unexpected
end" or "end of data", the suggestion counts unmatched braces and brackets by
plain character counts over the whole raw text — not string-escape-aware —
and reports the unclosed-brace count if positive, else the unclosed-bracket
count if positive, else the generic unexpected-end note; braces take
precedence over brackets. -/
theorem C8_amended_unexpected_end (msg text : List Char) (lineno colno : Nat)
    (hu : containsSub "unterminated string".data (pyLower msg) = false)
    (hp : containsSub "expecting property name".data (pyLower msg) = false)
    (he : containsSub "unexpected end".data (pyLower msg) = true ∨
      containsSub "end of data".data (pyLower msg) = true) :
    _suggest_fix msg text lineno colno =
      (if 0 < (text.count '\x7b' : Int) - (text.count '\x7d' : Int) then
        some ("Missing closing brace. ".data ++
          pyStrInt ((text.count '\x7b' : Int) - (text.count '\x7d' : Int)) ++
          " unclosed '\x7b' found.".data)
      else if 0 < (text.count '[' : Int) - (text.count ']' : Int) then
        some ("Missing closing bracket. ".data ++
          pyStrInt ((text.count '[' : Int) - (text.count ']' : Int)) ++
          " unclosed '[' found.".data)
      else
        some "Unexpected end of input. Check for missing closing braces or brackets.".data) := by
  simp only [_suggest_fix, hu, hp, Bool.false_eq_true, if_false]
  rw [if_pos he]

/-- Witness for the amended C8: a pure end-of-data message over text with two
unclosed braces. -/
theorem C8_amended_unexpected_end_witness :
    _suggest_fix "unexpected end".data "\x7b\x7b".data 1 1 =
      (if 0 < (("\x7b\x7b".data.count '\x7b' : Int) - ("\x7b\x7b".data.count '\x7d' : Int)) then
        some ("Missing closing brace. ".data ++
          pyStrInt (("\x7b\x7b".data.count '\x7b' : Int) - ("\x7b\x7b".data.count '\x7d' : Int)) ++
          " unclosed '\x7b' found.".data)
      else if 0 < (("\x7b\x7b".data.count '[' : Int) - ("\x7b\x7b".data.count ']' : Int)) then
        some ("Missing closing bracket. ".data ++
          pyStrInt (("\x7b\x7b".data.count '[' : Int) - ("\x7b\x7b".data.count ']' : Int)) ++
          " unclosed '[' found.".data)
      else
        some "Unexpected end of input. Check for missing closing braces or brackets.".data) :=
  C8_amended_unexpected_end "unexpected end".data "\x7b\x7b".data 1 1
    (by decide) (by decide) (Or.inl (by decide))

/-- Shifting lemma for find? over an initial segment of the naturals. -/
theorem find?_range_succ (p : Nat → Bool) (n : Nat) :
    (List.range (n + 1)).find? p =
      if p 0 = true then some 0
      else ((List.range n).find? (fun k => p (k + 1))).map (fun k => k + 1) := by
  rw [List.range_succ_eq_map]
  cases h : p 0 with
  | true => simp [List.find?_cons, h]
  | false => simp [List.find?_cons, h, List.find?_map, Function.comp_def]

/-- The extraction loop returns at the current character exactly when the
step function brings the tracked depth to zero. -/
theorem extractLoop_stop (opener closer : Char) (st : ExtState) (ch : Char) (rest : List Char)
    (h1 : 1 ≤ st.depth) (hz : (extStep opener closer st ch).depth = 0) :
    extractLoop opener closer st (ch :: rest) = some 1 := by
  simp only [extStep] at hz
  simp only [extractLoop]
  split_ifs at hz ⊢ <;> simp_all <;> omega

/-- When the step function does not bring the depth to zero, the extraction
loop consumes the character, moves to the stepped state and shifts the
returned index. -/
theorem extractLoop_continue (opener closer : Char) (st : ExtState) (ch : Char)
    (rest : List Char) (hz : (extStep opener closer st ch).depth ≠ 0) :
    extractLoop opener closer st (ch :: rest) =
      (extractLoop opener closer (extStep opener closer st ch) rest).map (fun n => n + 1) := by
  simp only [extStep] at hz ⊢
  simp only [extractLoop]
  split_ifs <;> simp_all

/-- The step function keeps the depth positive unless it hits zero. -/
theorem extStep_depth_pos (opener closer : Char) (st : ExtState) (ch : Char)
    (h1 : 1 ≤ st.depth) (hz : (extStep opener closer st ch).depth ≠ 0) :
    1 ≤ (extStep opener closer st ch).depth := by
  simp only [extStep] at hz ⊢
  split_ifs at hz ⊢ <;> simp_all <;> omega

/-- The extraction loop started at positive depth returns the successor of the
first index at which the folded scan depth hits zero, and fails when no
prefix brings the depth to zero. -/
theorem extractLoop_eq_find (opener closer : Char) (chars : List Char) :
    ∀ st : ExtState, 1 ≤ st.depth →
      extractLoop opener closer st chars =
        ((List.range chars.length).find? (fun k =>
            decide ((List.foldl (extStep opener closer) st (chars.take (k + 1))).depth = 0))).map
          (fun k => k + 1) := by
  induction chars with
  | nil =>
      intro st h1
      simp [extractLoop]
  | cons ch rest ih =>
      intro st h1
      by_cases hz : (extStep opener closer st ch).depth = 0
      · rw [extractLoop_stop opener closer st ch rest h1 hz]
        rw [List.length_cons, find?_range_succ]
        rw [if_pos (by simp [hz])]
        rfl
      · rw [extractLoop_continue opener closer st ch rest hz]
        rw [ih (extStep opener closer st ch) (extStep_depth_pos opener closer st ch h1 hz)]
        rw [List.length_cons, find?_range_succ]
        rw [if_neg (by simp [hz])]
        rw [Option.map_map, Option.map_map]
        congr 1

/-- The linear opener search returns an index past its starting offset holding
a structural opener, with the rest of the list unchanged past it. -/
theorem firstOpenerFrom_some_spec (l : List Char) :
    ∀ (i start : Nat) (opener : Char), firstOpenerFrom i l = some (start, opener) →
      i ≤ start ∧ (opener = '\x7b' ∨ opener = '[') ∧
      l.drop (start - i) = opener :: l.drop (start - i + 1) := by
  induction l with
  | nil => intro i start opener h; exact Option.noConfusion h
  | cons c rest ih =>
      intro i start opener h
      simp only [firstOpenerFrom] at h
      split_ifs at h with hc
      · obtain ⟨rfl, rfl⟩ : start = i ∧ opener = c := by
          have h' := h
          injection h' with h''
          exact ⟨congrArg Prod.fst h''.symm, congrArg Prod.snd h''.symm⟩
        refine ⟨le_refl _, hc, ?_⟩
        simp
      · obtain ⟨hle, hop, hdrop⟩ := ih (i + 1) start opener h
        refine ⟨by omega, hop, ?_⟩
        have e1 : start - i = (start - (i + 1)) + 1 := by omega
        rw [e1, List.drop_succ_cons, List.drop_succ_cons]
        exact hdrop

/-- The linear opener search fails exactly when no structural opener occurs. -/
theorem firstOpenerFrom_none_iff (l : List Char) :
    ∀ i : Nat, (firstOpenerFrom i l = Option.none ↔ ∀ c ∈ l, ¬(c = '\x7b' ∨ c = '[')) := by
  induction l with
  | nil => intro i; simp [firstOpenerFrom]
  | cons c rest ih =>
      intro i
      simp only [firstOpenerFrom]
      split_ifs with hc
      · constructor
        · intro h
          exact h.elim
        · intro hall
          exact absurd hc (hall c (List.mem_cons_self c rest))
      · rw [ih (i + 1)]
        constructor
        · intro hall c' hmem
          rcases List.mem_cons.mp hmem with rfl | hmem'
          · exact hc
          · exact hall c' hmem'
        · intro hall c' hmem'
          exact hall c' (List.mem_cons_of_mem c hmem')

/-- The source boundary extractor agrees everywhere with the spec-side
first-zero-crossing description. -/
theorem extract_eq_specFn (t : List Char) : _extract_json_substring t = extractSpecFn t := by
  unfold _extract_json_substring extractSpecFn
  cases hfo : firstOpenerFrom 0 t with
  | none => rfl
  | some p =>
      obtain ⟨start, opener⟩ := p
      obtain ⟨-, hop, hdrop⟩ := firstOpenerFrom_some_spec t 0 start opener hfo
      rw [Nat.sub_zero] at hdrop
      have hstep : extStep opener (if opener = '\x7b' then '\x7d' else ']')
          ⟨0, false, false⟩ opener = ⟨1, false, false⟩ := by
        rcases hop with h | h <;> subst h <;> rfl
      dsimp only
      rw [hdrop]
      rw [extractLoop_continue _ _ _ _ _ (by rw [hstep]; decide)]
      rw [extractLoop_eq_find _ _ _ _ (by simp [hstep])]
      rw [List.length_cons, find?_range_succ]
      have hcond : ¬(decide (extDepthAfter opener (if opener = '\x7b' then '\x7d' else ']')
          (List.take (0 + 1) (opener :: List.drop (start + 1) t)) = 0) = true) := by
        simp [extDepthAfter, hstep]
      rw [if_neg hcond]
      rw [Option.map_map, Option.map_map, Option.map_map]
      congr 1

/-- C6: boundary extraction returns exactly the contiguous substring of the
input starting at the first index holding a structural opener and ending at
the first later index where the string-escape-aware count of that one bracket
type returns to zero, both endpoints inclusive (the extractSpecFn
description); it returns none exactly when the text holds no opener or that
count never returns to zero; and every returned value is a contiguous
substring of the input, so string-literal contents are never altered. -/
theorem C6_boundary_extraction (t : List Char) :
    _extract_json_substring t = extractSpecFn t ∧
    (_extract_json_substring t = Option.none ↔
      ((∀ c ∈ t, ¬(c = '\x7b' ∨ c = '[')) ∨
       (∃ start opener, firstOpenerFrom 0 t = some (start, opener) ∧
         ∀ k < (t.drop start).length,
           extDepthAfter opener (if opener = '\x7b' then '\x7d' else ']')
             ((t.drop start).take (k + 1)) ≠ 0))) ∧
    (∀ s, _extract_json_substring t = some s → ∃ pre post, t = pre ++ s ++ post) := by
  refine ⟨extract_eq_specFn t, ?_, ?_⟩
  · rw [extract_eq_specFn t]
    unfold extractSpecFn
    cases hfo : firstOpenerFrom 0 t with
    | none =>
        constructor
        · intro _
          exact Or.inl ((firstOpenerFrom_none_iff t 0).mp hfo)
        · intro _
          rfl
    | some p =>
        obtain ⟨start, opener⟩ := p
        dsimp only
        constructor
        · intro hnone
          right
          refine ⟨start, opener, rfl, ?_⟩
          intro k hk hzero
          rw [Option.map_eq_none'] at hnone
          rw [List.find?_eq_none] at hnone
          have := hnone k (List.mem_range.mpr hk)
          simp only [decide_eq_true_eq] at this
          exact this hzero
        · intro h
          rcases h with hno | ⟨start', opener', heq, hall⟩
          · rw [(firstOpenerFrom_none_iff t 0).mpr hno] at hfo
            exact Option.noConfusion hfo
          · obtain ⟨rfl, rfl⟩ : start' = start ∧ opener' = opener := by
              have h' := Option.some.inj heq
              exact ⟨congrArg Prod.fst h'.symm, congrArg Prod.snd h'.symm⟩
            rw [Option.map_eq_none', List.find?_eq_none]
            intro k hkmem
            simp only [decide_eq_true_eq]
            exact hall k (List.mem_range.mp hkmem)
  · intro s hs
    rw [extract_eq_specFn t] at hs
    simp only [extractSpecFn] at hs
    cases hfo : firstOpenerFrom 0 t with
    | none =>
        rw [hfo] at hs
        exact Option.noConfusion hs
    | some p =>
        obtain ⟨start, opener⟩ := p
        rw [hfo] at hs
        dsimp only at hs
        obtain ⟨k, hfind, hfk⟩ := Option.map_eq_some'.mp hs
        refine ⟨t.take start, (t.drop start).drop (k + 1), ?_⟩
        rw [← hfk, List.append_assoc, List.take_append_drop, List.take_append_drop]

/-- Witness for C6: on a wrapped object whose string literal contains a
bracket, the extractor output is a contiguous substring of the input. -/
theorem C6_boundary_extraction_witness :
    ∃ pre post, "a\x7b\"]\"\x7d b".data = pre ++ "\x7b\"]\"\x7d".data ++ post :=
  (C6_boundary_extraction "a\x7b\"]\"\x7d b".data).2.2 "\x7b\"]\"\x7d".data (by decide)
